import Mathlib

/-!
Verification of the command-execution and validation core of a container
tool server (TypeScript sources: docker-client.ts, validation.ts, index.ts).
Strings are modelled as Lean strings; the JavaScript string operations used
by the source (regex replace of a single character, split on a separator
character, trim, startsWith, truthiness of numbers and strings) are embedded
explicitly over character lists.
-/

/-- The single-quote character (code 39), written by code point to keep the
    development free of quote literals. -/
def squote : Char := Char.ofNat 39

/-- The backslash character (code 92). -/
def bslash : Char := Char.ofNat 92

/-- The double-quote character (code 34). -/
def dquote : Char := Char.ofNat 34

/-- Whitespace set of the JavaScript `trim` operation (ASCII part plus
    no-break space; the source only ever trims ASCII output). -/
def isSpaceChar (c : Char) : Bool :=
  c = ' ' || c = '\t' || c = '\n' || c = '\r' ||
  c = Char.ofNat 11 || c = Char.ofNat 12 || c = Char.ofNat 160

/-- Embedding of JavaScript `String.prototype.trim`: drop whitespace from
    both ends. -/
def jsTrim (l : List Char) : List Char :=
  ((l.dropWhile isSpaceChar).reverse.dropWhile isSpaceChar).reverse

/-- Embedding of JavaScript `String.prototype.split` with a one-character
    separator: `splitOnChar sep l` cuts `l` at every occurrence of `sep`.
    On the empty list it returns one empty piece, as `split` does. -/
def splitOnChar (sep : Char) : List Char → List (List Char)
  | [] => [[]]
  | c :: cs =>
    if c = sep then [] :: splitOnChar sep cs
    else
      match splitOnChar sep cs with
      | [] => [[c]]
      | w :: ws => (c :: w) :: ws

/-- Join pieces with a separator character; inverse of `splitOnChar` on
    separator-free pieces. -/
def joinWith (sep : Char) : List (List Char) → List Char
  | [] => []
  | w :: ws =>
    match ws with
    | [] => w
    | _ :: _ => w ++ sep :: joinWith sep ws

/-- Embedding of JavaScript `String.prototype.startsWith`: prefix test on
    the character lists. -/
def jsStartsWith (s pre : String) : Bool := pre.data.isPrefixOf s.data

/-- One step of `DockerClient.escapeShellArg`'s regex replacement
    `replace(/'/g, "'\\''")`: a single quote becomes the four characters
    quote backslash quote quote; every other character is kept. -/
def escapeChars : List Char → List Char
  | [] => []
  | c :: cs =>
    (if c = squote then [squote, bslash, squote, squote] else [c]) ++ escapeChars cs

/-- `DockerClient.escapeShellArg`: replace each single quote by
    quote-backslash-quote-quote and enclose the whole value in single
    quotes. -/
def escapeShellArg (arg : String) : String :=
  String.mk (squote :: escapeChars arg.data ++ [squote])

/-- Characters that carry a shell metacharacter effect when they appear
    unquoted on a POSIX command line (word-splitting whitespace is handled
    separately by the parser below). -/
def shellMeta : List Char :=
  [';', '&', '|', '<', '>', '(', ')', '$', Char.ofNat 96, dquote,
   '*', '?', '[', '#', '~', '\n']

/-- Parser state for the POSIX word model: between words, inside an
    unquoted word, or inside a single-quoted section of a word. -/
inductive SState
  | gap
  | word
  | quoted
  deriving DecidableEq

/-- Word-splitting model of POSIX shell quoting: spaces separate words,
    a backslash escapes the next character, single quotes protect every
    character up to the closing quote, and any other metacharacter (or an
    unterminated quote or trailing backslash) yields `none`, signalling
    that the command line is not a plain sequence of literal words. -/
def shellWordsAux : List Char → SState → List Char → List (List Char) →
    Option (List (List Char))
  | [], .gap, _, acc => some acc
  | [], .word, cur, acc => some (acc ++ [cur])
  | [], .quoted, _, _ => none
  | c :: cs, .quoted, cur, acc =>
    if c = squote then shellWordsAux cs .word cur acc
    else shellWordsAux cs .quoted (cur ++ [c]) acc
  | c :: cs, .gap, cur, acc =>
    if c = squote then shellWordsAux cs .quoted cur acc
    else if c = bslash then
      match cs with
      | [] => none
      | d :: ds => shellWordsAux ds .word (cur ++ [d]) acc
    else if c = ' ' || c = '\t' then shellWordsAux cs .gap cur acc
    else if c ∈ shellMeta then none
    else shellWordsAux cs .word (cur ++ [c]) acc
  | c :: cs, .word, cur, acc =>
    if c = squote then shellWordsAux cs .quoted cur acc
    else if c = bslash then
      match cs with
      | [] => none
      | d :: ds => shellWordsAux ds .word (cur ++ [d]) acc
    else if c = ' ' || c = '\t' then shellWordsAux cs .gap [] (acc ++ [cur])
    else if c ∈ shellMeta then none
    else shellWordsAux cs .word (cur ++ [c]) acc

/-- Split a command line into its literal words under POSIX quoting;
    `none` when some character would have a metacharacter effect. -/
def shellWords (l : List Char) : Option (List (List Char)) :=
  shellWordsAux l .gap [] []

/-- One row of the container listing (`DockerContainer` in
    docker-client.ts): 7 string fields in fixed order. -/
structure DockerContainer where
  id : String
  name : String
  image : String
  status : String
  ports : String
  created : String
  command : String
  deriving DecidableEq

/-- Embedding of `field.replace(/"/g, '')`: remove every double-quote
    character anywhere in the field. -/
def removeQuotes (l : List Char) : List Char := l.filter (fun c => c ≠ dquote)

/-- One listing line of `DockerClient.listContainers`: `line.split('\t')`
    destructured into the 7 fields in fixed order; each present field goes
    through `replace(/"/g, '') || ''`, a missing field (destructuring
    `undefined`) defaults to the empty string. -/
def parseContainerLine (l : List Char) : DockerContainer :=
  let fs := (splitOnChar '\t' l).map removeQuotes
  { id := String.mk (fs.getD 0 [])
    name := String.mk (fs.getD 1 [])
    image := String.mk (fs.getD 2 [])
    status := String.mk (fs.getD 3 [])
    ports := String.mk (fs.getD 4 [])
    created := String.mk (fs.getD 5 [])
    command := String.mk (fs.getD 6 []) }

/-- Output handling of `DockerClient.listContainers`: trim the whole
    stdout, split on newlines, drop empty lines, parse each line. -/
def parseContainers (stdout : String) : List DockerContainer :=
  ((splitOnChar '\n' (jsTrim stdout.data)).filter (fun l => !l.isEmpty)).map
    parseContainerLine

/-- Render one record in the exact tab-separated field order produced by
    the listing format string (ID, Names, Image, Status, Ports, CreatedAt,
    Command). -/
def renderContainerLine (c : DockerContainer) : List Char :=
  joinWith '\t' [c.id.data, c.name.data, c.image.data, c.status.data,
    c.ports.data, c.created.data, c.command.data]

/-- Render a whole listing, one record per line. -/
def renderListing (rows : List DockerContainer) : List Char :=
  joinWith '\n' (rows.map renderContainerLine)

/-- A field is clean when it contains no tab, no newline and no double
    quote — the shape of real runtime listing fields. -/
def cleanField (s : String) : Bool :=
  s.data.all (fun c => c ≠ '\t' && c ≠ '\n' && c ≠ dquote)

/-- All 7 fields of a record are clean. -/
def cleanRecord (c : DockerContainer) : Bool :=
  cleanField c.id && cleanField c.name && cleanField c.image &&
  cleanField c.status && cleanField c.ports && cleanField c.created &&
  cleanField c.command

/-- Modelled from the claim text of C5: strip only the double-quote
    characters that surround a field, leaving interior quotes alone. -/
def stripSurroundingQuotes (l : List Char) : List Char :=
  ((l.dropWhile (fun c => c = dquote)).reverse.dropWhile
    (fun c => c = dquote)).reverse

/-- Modelled from the claim text of C5: split each remaining line on tabs
    into the 7 fields, strip only surrounding double quotes, default
    missing fields to the empty string. -/
def parseContainerLineClaim (l : List Char) : DockerContainer :=
  let fs := (splitOnChar '\t' l).map stripSurroundingQuotes
  { id := String.mk (fs.getD 0 [])
    name := String.mk (fs.getD 1 [])
    image := String.mk (fs.getD 2 [])
    status := String.mk (fs.getD 3 [])
    ports := String.mk (fs.getD 4 [])
    created := String.mk (fs.getD 5 [])
    command := String.mk (fs.getD 6 []) }

/-- Modelled from the claim text of C5: split the raw text on newlines
    (no whole-output trim), discard empty lines, parse each line as the
    claim describes. -/
def parseContainersClaim (stdout : String) : List DockerContainer :=
  ((splitOnChar '\n' stdout.data).filter (fun l => !l.isEmpty)).map
    parseContainerLineClaim

/-- The predicate of `DockerClient.findContainerByName`: exact name match,
    slash-prefixed name match, or id starts with the identifier. -/
def containerMatches (name : String) (c : DockerContainer) : Bool :=
  c.name == name || c.name == "/" ++ name || jsStartsWith c.id name

/-- `DockerClient.findContainerByName`: `containers.find(...)`, the first
    container in listing order satisfying the disjunction. -/
def findContainerByName (containers : List DockerContainer) (name : String) :
    Option DockerContainer :=
  containers.find? (containerMatches name)

/-- The listing row of the spec's concrete example. -/
def exampleRow : DockerContainer :=
  { id := "abc123", name := "web", image := "nginx", status := "Up 2 hours",
    ports := "80/tcp", created := "2024-01-01",
    command := "nginx -g daemon off;" }

/-- A container whose id begins with the identifier, placed early in the
    listing. -/
def earlyIdMatch : DockerContainer :=
  { id := "web123", name := "x", image := "", status := "", ports := "",
    created := "", command := "" }

/-- A container whose name is exactly the identifier, placed later in the
    listing. -/
def lateNameMatch : DockerContainer :=
  { id := "abc", name := "web", image := "", status := "", ports := "",
    created := "", command := "" }

/-- The result record of `DockerClient.execCommand`. -/
structure ExecResult where
  stdout : String
  stderr : String
  exitCode : Nat
  deriving DecidableEq

/-- Outcome of the underlying `exec` process layer for one spawn: either
    the process exited 0 with its two output channels, or it failed, in
    which case the failure object may carry captured stdout/stderr
    (`undefined` modelled as `none`) and an exit code (absent when the
    layer provides none). -/
inductive ExecOutcome
  | success (stdout stderr : String)
  | failure (stdout stderr : Option String) (code : Option Nat)
  deriving DecidableEq

/-- JavaScript `x || d` on a number: `0` is falsy, so a present code 0
    still yields the default. -/
def jsOrNat (x : Option Nat) (d : Nat) : Nat :=
  match x with
  | none => d
  | some 0 => d
  | some n => n

/-- `DockerClient.execCommand`'s result handling: on success return the
    outputs with exit code 0; on failure, if the error object carries any
    output channel, return those outputs (`|| ''`) with `error.code || 1`
    as exit code; otherwise the failure is rethrown as a `DockerError`
    (modelled as `none`). -/
def execCommandResult : ExecOutcome → Option ExecResult
  | .success out err => some { stdout := out, stderr := err, exitCode := 0 }
  | .failure out err code =>
    if out.isSome || err.isSome then
      some { stdout := out.getD "", stderr := err.getD "",
             exitCode := jsOrNat code 1 }
    else none

/-- `getContainerLogs` output handling: both channels are log content;
    `[stdout, stderr].filter(Boolean).join('\n')` keeps the non-empty
    channels and joins them with one newline. -/
def joinNewline : List String → String
  | [] => ""
  | s :: rest =>
    match rest with
    | [] => s
    | _ :: _ => s ++ "\n" ++ joinNewline rest

/-- The log parser of `DockerClient.getContainerLogs`. -/
def combineLogChannels (out err : String) : String :=
  joinNewline ([out, err].filter (fun s => !s.isEmpty))

/-- `DockerClient.getContainerLogs` command assembly: the container id and
    the option values are concatenated directly into the command string;
    `if (lines)` / `if (since)` / `if (until)` are JavaScript truthiness
    tests, so a present 0 or empty string is skipped. -/
def getContainerLogsCommand (containerId : String) (lines : Option Nat)
    (since untl : Option String) (timestamps : Bool) : String :=
  let c := "docker logs " ++ containerId
  let c := match lines with
    | some n => if n = 0 then c else c ++ " --tail " ++ toString n
    | none => c
  let c := match since with
    | some s => if s.isEmpty then c else c ++ " --since " ++ s
    | none => c
  let c := match untl with
    | some s => if s.isEmpty then c else c ++ " --until " ++ s
    | none => c
  if timestamps then c ++ " --timestamps" else c

/-- `DockerClient.inspectContainer` command assembly: raw concatenation of
    the identifier. -/
def inspectContainerCommand (containerId : String) : String :=
  "docker inspect " ++ containerId

/-- `DockerClient.getContainerStats` command assembly: raw concatenation
    of the identifier, then the fixed no-stream and format flags. -/
def statsContainerCommand (containerId : String) : String :=
  "docker stats " ++ containerId ++
  " --no-stream --format \"table \x7b\x7b.Container\x7d\x7d\t\x7b\x7b.CPUPerc\x7d\x7d\t\x7b\x7b.MemUsage\x7d\x7d\t\x7b\x7b.MemPerc\x7d\x7d\t\x7b\x7b.NetIO\x7d\x7d\t\x7b\x7b.BlockIO\x7d\x7d\""

/-- The options record of `DockerClient.execCommand`
    (`DockerExecOptions`). -/
structure DockerExecOptions where
  containerId : String
  command : List String
  workingDir : Option String
  env : Option (List String)
  user : Option String
  privileged : Bool
  interactive : Bool
  deriving DecidableEq

/-- `DockerClient.execCommand` command assembly: fixed flags plus every
    caller-controlled value passed through `escapeShellArg`; `workingDir`
    and `user` are guarded by JavaScript truthiness, `env` by a
    length-positive test. -/
def buildExecCommand (o : DockerExecOptions) : String :=
  let c := "docker exec"
  let c := if o.interactive then c ++ " -it" else c
  let c := match o.workingDir with
    | some w => if w.isEmpty then c else c ++ " --workdir " ++ escapeShellArg w
    | none => c
  let c := match o.user with
    | some u => if u.isEmpty then c else c ++ " --user " ++ escapeShellArg u
    | none => c
  let c := if o.privileged then c ++ " --privileged" else c
  let c := match o.env with
    | some evs =>
      if evs.isEmpty then c
      else evs.foldl (fun acc ev => acc ++ " --env " ++ escapeShellArg ev) c
    | none => c
  let c := c ++ " " ++ escapeShellArg o.containerId
  o.command.foldl (fun acc arg => acc ++ " " ++ escapeShellArg arg) c

/-- First character of the container-name pattern
    `[a-zA-Z0-9][a-zA-Z0-9._-]*`. -/
def isNameFirst (c : Char) : Bool :=
  c.isAlpha || c.isDigit

/-- Continuation characters of the container-name pattern. -/
def isNameRest (c : Char) : Bool :=
  c.isAlpha || c.isDigit || c = '.' || c = '_' || c = '-'

/-- `ContainerNameSchema`: non-empty and matching
    `^[a-zA-Z0-9][a-zA-Z0-9._-]*$`. -/
def isContainerName (s : String) : Bool :=
  match s.data with
  | [] => false
  | c :: cs => isNameFirst c && cs.all isNameRest

/-- Hex characters of the container-id pattern `[a-fA-F0-9]+`. -/
def isHexChar (c : Char) : Bool :=
  c.isDigit || (97 ≤ c.toNat && c.toNat ≤ 102) ||
  (65 ≤ c.toNat && c.toNat ≤ 70)

/-- `ContainerIdSchema`: non-empty and matching `^[a-fA-F0-9]+$`. -/
def isContainerId (s : String) : Bool :=
  !s.data.isEmpty && s.data.all isHexChar

/-- `ContainerIdentifierSchema`: non-empty, and a valid name, a valid id,
    or a string beginning with a slash. -/
def isValidContainerIdentifier (s : String) : Bool :=
  !s.isEmpty &&
  (isContainerName s || isContainerId s || jsStartsWith s "/")

/-- `LogLinesSchema`: integer between 1 and 10000 inclusive (the integer
    constraint is carried by the `Nat` model). -/
def isValidLogLines (n : Nat) : Bool :=
  1 ≤ n && n ≤ 10000

/-- The relative-duration pattern `^\d+[smhd]$` of `TimestampSchema`. -/
def isRelativeDuration (s : String) : Bool :=
  match s.data.reverse with
  | [] => false
  | u :: ds => (u = 's' || u = 'm' || u = 'h' || u = 'd') &&
      !ds.isEmpty && ds.all Char.isDigit

/-- `TimestampSchema`'s refinement, parameterised by the JavaScript
    `Date.parse` oracle (`none` models `NaN`): accept when the
    relative-duration pattern matches, otherwise test `Date.parse(val)`
    for JavaScript truthiness — which is false both for `NaN` and for the
    number 0, the epoch instant. -/
def timestampAccepted (dateParse : String → Option Int) (s : String) : Bool :=
  if isRelativeDuration s then true
  else
    match dateParse s with
    | none => false
    | some t => !(t == 0)

/-- A concrete fragment of the JavaScript `Date.parse` oracle: the ISO
    epoch instant parses to 0, one second after it to 1000; everything
    else is left unparseable. -/
def dateParseAtEpoch (s : String) : Option Int :=
  if s = "1970-01-01T00:00:00Z" then some 0
  else if s = "1970-01-01T00:00:01Z" then some 1000
  else none

/-- `CommandSchema`: 1 to 100 arguments, each non-empty. -/
def isValidCommandArray (cmd : List String) : Bool :=
  1 ≤ cmd.length && cmd.length ≤ 100 && cmd.all (fun s => !s.isEmpty)

/-- First character of the env-entry pattern `[a-zA-Z_]`. -/
def isEnvFirst (c : Char) : Bool := c.isAlpha || c = '_'

/-- Key characters of the env-entry pattern `[a-zA-Z0-9_]`. -/
def isEnvRest (c : Char) : Bool := c.isAlpha || c.isDigit || c = '_'

/-- `EnvVarSchema`: matches `^[a-zA-Z_][a-zA-Z0-9_]*=.*$`. -/
def isValidEnvVar (s : String) : Bool :=
  match s.data with
  | [] => false
  | c :: cs =>
    isEnvFirst c &&
    (match cs.dropWhile isEnvRest with
     | d :: _ => d = '='
     | [] => false)

/-- One name part of the user pattern: `[a-zA-Z0-9_][a-zA-Z0-9_-]*`. -/
def isUserNamePart (l : List Char) : Bool :=
  match l with
  | [] => false
  | c :: cs =>
    (c.isAlpha || c.isDigit || c = '_') &&
    cs.all (fun d => d.isAlpha || d.isDigit || d = '_' || d = '-')

/-- One digit part of the user pattern: `\d+`. -/
def isUserDigitPart (l : List Char) : Bool :=
  !l.isEmpty && l.all Char.isDigit

/-- `UserSchema`: matches
    `^[a-zA-Z0-9_][a-zA-Z0-9_-]*(:[a-zA-Z0-9_][a-zA-Z0-9_-]*)?$` or
    `^\d+(:\d+)?$` — at most one colon, both sides name parts or both
    sides digit runs. -/
def isValidUser (s : String) : Bool :=
  match splitOnChar ':' s.data with
  | [a] => isUserNamePart a || isUserDigitPart a
  | [a, b] => (isUserNamePart a && isUserNamePart b) ||
      (isUserDigitPart a && isUserDigitPart b)
  | _ => false

/-- `WorkingDirSchema`: non-empty and starting with a slash. -/
def isValidWorkingDir (s : String) : Bool :=
  !s.isEmpty && jsStartsWith s "/"

/-- `ReadLogsSchema` on the post-default values: identifier, line count,
    optional timestamps. -/
def isValidReadLogsArgs (dateParse : String → Option Int) (container : String)
    (lines : Nat) (since untl : Option String) : Bool :=
  isValidContainerIdentifier container && isValidLogLines lines &&
  (match since with
   | some s => timestampAccepted dateParse s
   | none => true) &&
  (match untl with
   | some s => timestampAccepted dateParse s
   | none => true)

/-- `ExecCommandSchema` on the post-default values. -/
def isValidExecArgs (container : String) (cmd : List String)
    (wd : Option String) (ev : Option (List String))
    (us : Option String) : Bool :=
  isValidContainerIdentifier container && isValidCommandArray cmd &&
  (match wd with
   | some w => isValidWorkingDir w
   | none => true) &&
  (match ev with
   | some evs => evs.all isValidEnvVar
   | none => true) &&
  (match us with
   | some u => isValidUser u
   | none => true)

/-- One request of the tool-call handler, carrying the post-default
    argument values of the five operations. -/
inductive ToolRequest
  | listContainers (all : Bool)
  | readLogs (container : String) (lines : Nat) (since untl : Option String)
      (timestamps : Bool)
  | inspectContainer (container : String)
  | containerStats (container : String)
  | execCommand (container : String) (command : List String)
      (workingDir : Option String) (env : Option (List String))
      (user : Option String) (privileged interactive : Bool)
  deriving DecidableEq

/-- One external CLI invocation performed by an operation, in order: the
    version probe, a listing fetch (running-only or all), or one of the
    per-container commands carrying the exact command string built. -/
inductive DockerCall
  | version
  | ps (all : Bool)
  | logs (cmd : String)
  | inspect (cmd : String)
  | stats (cmd : String)
  | exec (cmd : String)
  deriving DecidableEq

/-- Successful payload of one operation (presentation formatting of
    index.ts is elided; the payload carries the parsed operation result). -/
inductive OkPayload
  | listing (rows : List DockerContainer)
  | logs (text : String)
  | inspectDoc (text : String)
  | statsText (text : String)
  | execRes (r : ExecResult)
  deriving DecidableEq

/-- The classified errors thrown by the handler: daemon unavailable,
    validation failure (ZodError), resolver miss carrying the identifier
    string passed to `ContainerNotFoundError`, or a wrapped DockerError. -/
inductive ThrownError
  | dockerNotAvailable
  | invalidArguments
  | containerNotFound (ident : String)
  | dockerError (msg : String)
  deriving DecidableEq

/-- Handler response: success payload or caught error. -/
inductive ToolResponse
  | ok (payload : OkPayload)
  | error (e : ThrownError)
  deriving DecidableEq

/-- The world outside the handler for one invocation: daemon
    reachability, the listing stdout per scope, the outputs of the
    per-container subprocesses (modelled as succeeding; subprocess
    failures of the non-exec operations are not claim-relevant), the exec
    process outcome, and the `Date.parse` oracle. -/
structure DockerEnv where
  available : Bool
  psOutput : Bool → String
  logsOut : String
  logsErr : String
  inspectOut : String
  statsOut : String
  execOutcome : ExecOutcome
  dateParse : String → Option Int

/-- The `CallToolRequestSchema` handler of index.ts: probe the daemon
    first and fail with `DockerNotAvailableError` before anything else;
    then validate the arguments, fetch the listing in the operation's
    scope (`all=true` for logs/inspect, `all=false` for stats/exec),
    resolve the identifier, and run the per-container command; a resolver
    miss throws `ContainerNotFoundError` with the raw identifier — for
    stats/exec with `' (running)'` appended. Returns the response paired
    with the trace of CLI invocations attempted. -/
def handleTool (env : DockerEnv) (req : ToolRequest) :
    ToolResponse × List DockerCall :=
  if !env.available then (.error .dockerNotAvailable, [.version])
  else
    match req with
    | .listContainers all =>
      (.ok (.listing (parseContainers (env.psOutput all))), [.version, .ps all])
    | .readLogs container lines since untl timestamps =>
      if !isValidReadLogsArgs env.dateParse container lines since untl then
        (.error .invalidArguments, [.version])
      else
        match findContainerByName (parseContainers (env.psOutput true))
            container with
        | none => (.error (.containerNotFound container), [.version, .ps true])
        | some cont =>
          (.ok (.logs (combineLogChannels env.logsOut env.logsErr)),
           [.version, .ps true,
            .logs (getContainerLogsCommand cont.id (some lines) since untl
              timestamps)])
    | .inspectContainer container =>
      if !isValidContainerIdentifier container then
        (.error .invalidArguments, [.version])
      else
        match findContainerByName (parseContainers (env.psOutput true))
            container with
        | none => (.error (.containerNotFound container), [.version, .ps true])
        | some cont =>
          (.ok (.inspectDoc env.inspectOut),
           [.version, .ps true, .inspect (inspectContainerCommand cont.id)])
    | .containerStats container =>
      if !isValidContainerIdentifier container then
        (.error .invalidArguments, [.version])
      else
        match findContainerByName (parseContainers (env.psOutput false))
            container with
        | none =>
          (.error (.containerNotFound (container ++ " (running)")),
           [.version, .ps false])
        | some cont =>
          (.ok (.statsText env.statsOut),
           [.version, .ps false, .stats (statsContainerCommand cont.id)])
    | .execCommand container command workingDir env2 user privileged
        interactive =>
      if !isValidExecArgs container command workingDir env2 user then
        (.error .invalidArguments, [.version])
      else
        match findContainerByName (parseContainers (env.psOutput false))
            container with
        | none =>
          (.error (.containerNotFound (container ++ " (running)")),
           [.version, .ps false])
        | some cont =>
          let cmdStr := buildExecCommand
            { containerId := cont.id, command := command,
              workingDir := workingDir, env := env2, user := user,
              privileged := privileged, interactive := interactive }
          match execCommandResult env.execOutcome with
          | some r =>
            (.ok (.execRes r), [.version, .ps false, .exec cmdStr])
          | none =>
            (.error (.dockerError "Failed to execute command in container"),
             [.version, .ps false, .exec cmdStr])

/-- An environment whose daemon probe fails. -/
def envDown : DockerEnv :=
  { available := false, psOutput := fun _ => "", logsOut := "",
    logsErr := "", inspectOut := "", statsOut := "",
    execOutcome := .success "" "", dateParse := fun _ => none }

/-- An environment whose daemon probe succeeds and whose listings are
    empty. -/
def envUp : DockerEnv :=
  { available := true, psOutput := fun _ => "", logsOut := "",
    logsErr := "", inspectOut := "", statsOut := "",
    execOutcome := .success "" "", dateParse := fun _ => none }

theorem squote_ne_bslash : squote ≠ bslash := by decide

theorem squote_not_meta : squote ∉ shellMeta := by decide

theorem squote_ne_space : (squote = ' ' || squote = '\t') = false := by decide

theorem shellWordsAux_quoted_squote (cs cur : List Char)
    (acc : List (List Char)) :
    shellWordsAux (squote :: cs) .quoted cur acc =
      shellWordsAux cs .word cur acc := by
  simp [shellWordsAux]

theorem shellWordsAux_quoted_other (c : Char) (hc : c ≠ squote)
    (cs cur : List Char) (acc : List (List Char)) :
    shellWordsAux (c :: cs) .quoted cur acc =
      shellWordsAux cs .quoted (cur ++ [c]) acc := by
  simp [shellWordsAux, hc]

theorem shellWordsAux_word_squote (cs cur : List Char)
    (acc : List (List Char)) :
    shellWordsAux (squote :: cs) .word cur acc =
      shellWordsAux cs .quoted cur acc := by
  cases cs <;> simp [shellWordsAux]

theorem shellWordsAux_word_bslash (d : Char) (ds cur : List Char)
    (acc : List (List Char)) :
    shellWordsAux (bslash :: d :: ds) .word cur acc =
      shellWordsAux ds .word (cur ++ [d]) acc := by
  have hbs : ¬(bslash = squote) := fun h => squote_ne_bslash h.symm
  simp [shellWordsAux, hbs]

theorem shellWordsAux_gap_squote (cs cur : List Char)
    (acc : List (List Char)) :
    shellWordsAux (squote :: cs) .gap cur acc =
      shellWordsAux cs .quoted cur acc := by
  cases cs <;> simp [shellWordsAux]

/-- Inside a single-quoted section, the escaped tail of a value followed by
    the closing quote is consumed literally, finishing the current word. -/
theorem shellWordsAux_escape (cs : List Char) :
    ∀ cur acc, shellWordsAux (escapeChars cs ++ [squote]) .quoted cur acc =
      some (acc ++ [cur ++ cs]) := by
  induction cs with
  | nil =>
    intro cur acc
    simp [escapeChars, shellWordsAux]
  | cons c cs ih =>
    intro cur acc
    by_cases hc : c = squote
    · subst hc
      have h1 : escapeChars (squote :: cs) ++ [squote] =
          squote :: bslash :: squote :: squote :: (escapeChars cs ++ [squote]) := by
        simp [escapeChars]
      rw [h1, shellWordsAux_quoted_squote, shellWordsAux_word_bslash,
        shellWordsAux_word_squote, ih]
      simp
    · have h1 : escapeChars (c :: cs) ++ [squote] =
          c :: (escapeChars cs ++ [squote]) := by
        simp [escapeChars, hc]
      rw [h1, shellWordsAux_quoted_other c hc, ih]
      simp

/-- Claim C1: for every argument string, the escaper output, parsed under
    POSIX shell quoting rules, is recovered as exactly one literal word
    with no shell metacharacter effect. -/
theorem escapeShellArg_injection_safe (s : String) :
    shellWords (escapeShellArg s).data = some [s.data] := by
  show shellWordsAux (squote :: escapeChars s.data ++ [squote]) .gap [] [] =
    some [s.data]
  rw [List.cons_append, shellWordsAux_gap_squote, shellWordsAux_escape]
  simp

theorem stringMk_data (s : String) : String.mk s.data = s := rfl

theorem splitOnChar_no_sep (sep : Char) (l : List Char) (h : sep ∉ l) :
    splitOnChar sep l = [l] := by
  induction l with
  | nil => rfl
  | cons c cs ih =>
    have hc : ¬(c = sep) := fun e => h (e ▸ List.mem_cons_self c cs)
    have ih2 := ih (fun hm => h (List.mem_cons_of_mem _ hm))
    simp [splitOnChar, hc, ih2]

theorem splitOnChar_append_sep (sep : Char) (w rest : List Char)
    (hw : sep ∉ w) :
    splitOnChar sep (w ++ sep :: rest) = w :: splitOnChar sep rest := by
  induction w with
  | nil => simp [splitOnChar]
  | cons c cs ih =>
    have hc : ¬(c = sep) := fun e => hw (e ▸ List.mem_cons_self c cs)
    have ih2 := ih (fun hm => hw (List.mem_cons_of_mem _ hm))
    simp [splitOnChar, hc, ih2]

theorem joinWith_cons_cons (sep : Char) (w w2 : List Char)
    (ws : List (List Char)) :
    joinWith sep (w :: w2 :: ws) = w ++ sep :: joinWith sep (w2 :: ws) := rfl

theorem splitOnChar_joinWith (sep : Char) (ws : List (List Char))
    (hne : ws ≠ []) (h : ∀ w ∈ ws, sep ∉ w) :
    splitOnChar sep (joinWith sep ws) = ws := by
  induction ws with
  | nil => cases hne rfl
  | cons w ws ih =>
    cases ws with
    | nil =>
      show splitOnChar sep (joinWith sep [w]) = [w]
      have : joinWith sep [w] = w := rfl
      rw [this, splitOnChar_no_sep sep w (h w (List.mem_cons_self w []))]
    | cons w2 ws2 =>
      rw [joinWith_cons_cons,
        splitOnChar_append_sep sep w _ (h w (List.mem_cons_self w _)),
        ih (by simp) (fun u hu => h u (List.mem_cons_of_mem _ hu))]

theorem mem_joinWith (sep : Char) (ws : List (List Char)) (c : Char)
    (hc : c ∈ joinWith sep ws) : c = sep ∨ ∃ w ∈ ws, c ∈ w := by
  induction ws with
  | nil => cases hc
  | cons w ws ih =>
    cases ws with
    | nil =>
      exact Or.inr ⟨w, List.mem_cons_self w [], hc⟩
    | cons w2 ws2 =>
      rw [joinWith_cons_cons] at hc
      rcases List.mem_append.mp hc with h1 | h2
      · exact Or.inr ⟨w, List.mem_cons_self w _, h1⟩
      · rcases List.mem_cons.mp h2 with h3 | h4
        · exact Or.inl h3
        · rcases ih h4 with h5 | ⟨u, hu, hcu⟩
          · exact Or.inl h5
          · exact Or.inr ⟨u, List.mem_cons_of_mem _ hu, hcu⟩

theorem cleanField_no_tab (s : String) (h : cleanField s = true) :
    '\t' ∉ s.data := by
  intro hm
  have h2 := (List.all_eq_true.mp h) _ hm
  simp at h2

theorem cleanField_no_newline (s : String) (h : cleanField s = true) :
    '\n' ∉ s.data := by
  intro hm
  have h2 := (List.all_eq_true.mp h) _ hm
  simp at h2

theorem cleanField_removeQuotes (s : String) (h : cleanField s = true) :
    removeQuotes s.data = s.data := by
  apply List.filter_eq_self.mpr
  intro c hc
  have h2 := (List.all_eq_true.mp h) _ hc
  simp only [Bool.and_eq_true, decide_eq_true_eq] at h2
  simp [h2.2]

theorem cleanRecord_fields (c : DockerContainer) (h : cleanRecord c = true) :
    cleanField c.id = true ∧ cleanField c.name = true ∧
    cleanField c.image = true ∧ cleanField c.status = true ∧
    cleanField c.ports = true ∧ cleanField c.created = true ∧
    cleanField c.command = true := by
  simp only [cleanRecord, Bool.and_eq_true] at h
  tauto

theorem renderContainerLine_ne_nil (c : DockerContainer) :
    renderContainerLine c ≠ [] := by
  unfold renderContainerLine
  rw [joinWith_cons_cons]
  simp

theorem renderContainerLine_no_newline (c : DockerContainer)
    (h : cleanRecord c = true) : '\n' ∉ renderContainerLine c := by
  intro hmem
  obtain ⟨h1, h2, h3, h4, h5, h6, h7⟩ := cleanRecord_fields c h
  rcases mem_joinWith '\t' _ _ hmem with he | ⟨w, hw, hcw⟩
  · exact absurd he (by decide)
  · simp only [List.mem_cons, List.not_mem_nil, or_false] at hw
    rcases hw with rfl | rfl | rfl | rfl | rfl | rfl | rfl
    · exact cleanField_no_newline _ h1 hcw
    · exact cleanField_no_newline _ h2 hcw
    · exact cleanField_no_newline _ h3 hcw
    · exact cleanField_no_newline _ h4 hcw
    · exact cleanField_no_newline _ h5 hcw
    · exact cleanField_no_newline _ h6 hcw
    · exact cleanField_no_newline _ h7 hcw

theorem parseContainerLine_render (c : DockerContainer)
    (h : cleanRecord c = true) :
    parseContainerLine (renderContainerLine c) = c := by
  obtain ⟨h1, h2, h3, h4, h5, h6, h7⟩ := cleanRecord_fields c h
  have htabs : ∀ w ∈ [c.id.data, c.name.data, c.image.data, c.status.data,
      c.ports.data, c.created.data, c.command.data], '\t' ∉ w := by
    intro w hw
    simp only [List.mem_cons, List.not_mem_nil, or_false] at hw
    rcases hw with rfl | rfl | rfl | rfl | rfl | rfl | rfl
    · exact cleanField_no_tab _ h1
    · exact cleanField_no_tab _ h2
    · exact cleanField_no_tab _ h3
    · exact cleanField_no_tab _ h4
    · exact cleanField_no_tab _ h5
    · exact cleanField_no_tab _ h6
    · exact cleanField_no_tab _ h7
  unfold parseContainerLine renderContainerLine
  rw [splitOnChar_joinWith '\t' _ (by simp) htabs]
  simp only [List.map_cons, List.map_nil,
    cleanField_removeQuotes _ h1, cleanField_removeQuotes _ h2,
    cleanField_removeQuotes _ h3, cleanField_removeQuotes _ h4,
    cleanField_removeQuotes _ h5, cleanField_removeQuotes _ h6,
    cleanField_removeQuotes _ h7]
  simp only [List.getD, List.get?, Option.getD_some]

theorem parseContainers_render (rows : List DockerContainer)
    (hclean : ∀ c ∈ rows, cleanRecord c = true)
    (htrim : jsTrim (renderListing rows) = renderListing rows) :
    parseContainers (String.mk (renderListing rows)) = rows := by
  cases rows with
  | nil => rfl
  | cons r rs =>
    unfold parseContainers
    rw [show (String.mk (renderListing (r :: rs))).data =
        renderListing (r :: rs) from rfl, htrim]
    unfold renderListing
    rw [splitOnChar_joinWith '\n' _ (by simp) (by
      intro w hw
      rcases List.mem_map.mp hw with ⟨c, hc, rfl⟩
      exact renderContainerLine_no_newline c (hclean c hc))]
    rw [List.filter_eq_self.mpr (by
      intro w hw
      rcases List.mem_map.mp hw with ⟨c, _, rfl⟩
      simpa using renderContainerLine_ne_nil c)]
    rw [List.map_map]
    have : ∀ c ∈ r :: rs,
        (parseContainerLine ∘ renderContainerLine) c = id c := by
      intro c hc
      simp only [Function.comp_apply, id_eq]
      exact parseContainerLine_render c (hclean c hc)
    rw [List.map_congr_left this, List.map_id]

/-- Counterexample to claim C5 as stated: on the output text
    (space)x(newline)a(dquote)b the implemented parser trims the whole
    text first and removes the interior double quote, while the parser the
    claim describes keeps the leading space and the interior quote. -/
theorem parseContainers_claim_cex :
    parseContainers " x\na\"b" ≠ parseContainersClaim " x\na\"b" := by
  decide

/-- Claim C5 (amended): the parser trims the whole output, splits on
    newlines, discards empty lines, splits each line on tabs into the 7
    fields in fixed order (missing fields default to empty) and removes
    every double-quote character from each field; the claim's example line
    yields exactly the stated record, and any rendering of clean records
    with no surrounding whitespace parses back to exactly those records. -/
theorem parseContainers_correct (rows : List DockerContainer)
    (hclean : ∀ c ∈ rows, cleanRecord c = true)
    (htrim : jsTrim (renderListing rows) = renderListing rows) :
    parseContainers
      "abc123\tweb\tnginx\tUp 2 hours\t80/tcp\t2024-01-01\tnginx -g daemon off;"
      = [exampleRow]
    ∧ parseContainers (String.mk (renderListing rows)) = rows :=
  ⟨by decide, parseContainers_render rows hclean htrim⟩

/-- Witness for C5's amended theorem at the one-row listing of the
    example record. -/
theorem parseContainers_correct_witness :
    (∀ c ∈ [exampleRow], cleanRecord c = true) ∧
    jsTrim (renderListing [exampleRow]) = renderListing [exampleRow] ∧
    parseContainers (String.mk (renderListing [exampleRow])) = [exampleRow] := by
  have h1 : ∀ c ∈ [exampleRow], cleanRecord c = true := by decide
  have h2 : jsTrim (renderListing [exampleRow]) = renderListing [exampleRow] := by
    decide
  exact ⟨h1, h2, (parseContainers_correct [exampleRow] h1 h2).2⟩

/-- Counterexample to claim C3 as stated: with an earlier container whose
    id merely starts with the identifier and a later container whose name
    matches it exactly, the resolver returns the earlier id-prefix match,
    not the exact-name match — listing order wins over rule precedence. -/
theorem findContainerByName_precedence_cex :
    findContainerByName [earlyIdMatch, lateNameMatch] "web" =
      some earlyIdMatch
    ∧ earlyIdMatch.name ≠ "web" ∧ earlyIdMatch.name ≠ "/web"
    ∧ lateNameMatch.name = "web" ∧ earlyIdMatch ≠ lateNameMatch := by
  decide

/-- Claim C3 (amended): resolution scans the listing in order and returns
    the first container satisfying any of the three rules (exact name,
    slash-prefixed name, id prefix); the rules are disjuncts tested per
    container, with no precedence across the listing. -/
theorem findContainerByName_first_match (cs : List DockerContainer)
    (n : String) (c : DockerContainer) :
    findContainerByName cs n = some c ↔
      ∃ l₁ l₂, cs = l₁ ++ c :: l₂ ∧ containerMatches n c = true ∧
        ∀ e ∈ l₁, containerMatches n e = false := by
  induction cs with
  | nil =>
    constructor
    · intro h; cases h
    · rintro ⟨l₁, l₂, h, -, -⟩
      exact absurd h (by simp)
  | cons d ds ih =>
    unfold findContainerByName at *
    rw [List.find?_cons]
    by_cases hd : containerMatches n d = true
    · rw [hd]
      constructor
      · intro h
        injection h with h
        subst h
        exact ⟨[], ds, rfl, hd, by simp⟩
      · rintro ⟨l₁, l₂, heq, hc, hmiss⟩
        cases l₁ with
        | nil =>
          simp only [List.nil_append, List.cons.injEq] at heq
          rw [heq.1]
        | cons e l₁ =>
          simp only [List.cons_append, List.cons.injEq] at heq
          have := hmiss e (List.mem_cons_self e l₁)
          rw [heq.1] at hd
          rw [hd] at this
          cases this
    · rw [Bool.not_eq_true] at hd
      rw [hd]
      constructor
      · intro h
        rcases (ih).mp h with ⟨l₁, l₂, heq, hc, hmiss⟩
        refine ⟨d :: l₁, l₂, by simp [heq], hc, ?_⟩
        intro e he
        rcases List.mem_cons.mp he with rfl | he2
        · exact hd
        · exact hmiss e he2
      · rintro ⟨l₁, l₂, heq, hc, hmiss⟩
        cases l₁ with
        | nil =>
          simp only [List.nil_append, List.cons.injEq] at heq
          rw [← heq.1] at hc
          rw [hc] at hd
          cases hd
        | cons e l₁ =>
          simp only [List.cons_append, List.cons.injEq] at heq
          refine (ih).mpr ⟨l₁, l₂, heq.2, hc, ?_⟩
          intro u hu
          exact hmiss u (List.mem_cons_of_mem _ hu)

/-- Claim C10: the resolver called with the empty identifier returns the
    first container of the listing (every id starts with the empty
    string), and only the upstream validation layer rejects the empty
    identifier. -/
theorem findContainerByName_empty_identifier (cs : List DockerContainer) :
    findContainerByName cs "" = cs.head?
    ∧ isValidContainerIdentifier "" = false := by
  constructor
  · unfold findContainerByName
    induction cs with
    | nil => rfl
    | cons c cs ih =>
      rw [List.find?_cons]
      have : containerMatches "" c = true := by
        unfold containerMatches jsStartsWith
        cases h : c.id.data <;> simp [List.isPrefixOf]
      rw [this]
      rfl
  · decide

/-- Counterexample to claim C4 as stated: when the failure object carries
    exit code 0 (a code the underlying layer did provide), the result's
    exit code is the default 1, not the provided code — the JavaScript
    falsy-or also defaults on 0, not only when no code is present. -/
theorem execCommandResult_code_zero_cex :
    execCommandResult (.failure (some "o") (some "e") (some 0)) =
      some { stdout := "o", stderr := "e", exitCode := 1 }
    ∧ execCommandResult (.failure (some "o") (some "e") (some 0)) ≠
      some { stdout := "o", stderr := "e", exitCode := 0 } := by
  decide

/-- Claim C4 (amended): a non-zero exit of the user's command is not an
    error of this system — whenever the failure object carries any output
    channel, execCommand returns a successful result whose exit code is
    the provided code when that code is non-zero, whose outputs are the
    captured channels (never discarded), and whose exit code defaults to 1
    when the layer provides no code or provides code 0; a success returns
    exit code 0, and a failure carrying no output at all is a DockerError. -/
theorem execCommandResult_cases (s t : String) (o e : Option String)
    (n : Nat) (c : Option Nat) (hoe : (o.isSome || e.isSome) = true)
    (hn : n ≠ 0) :
    execCommandResult (.success s t) =
      some { stdout := s, stderr := t, exitCode := 0 }
    ∧ execCommandResult (.failure o e (some n)) =
      some { stdout := o.getD "", stderr := e.getD "", exitCode := n }
    ∧ execCommandResult (.failure o e none) =
      some { stdout := o.getD "", stderr := e.getD "", exitCode := 1 }
    ∧ execCommandResult (.failure o e (some 0)) =
      some { stdout := o.getD "", stderr := e.getD "", exitCode := 1 }
    ∧ execCommandResult (.failure none none c) = none := by
  refine ⟨rfl, ?_, ?_, ?_, rfl⟩
  · simp only [execCommandResult]
    rw [if_pos hoe]
    have : jsOrNat (some n) 1 = n := by
      cases n with
      | zero => cases hn rfl
      | succ m => rfl
    simp [this]
  · simp only [execCommandResult]
    rw [if_pos hoe]
    rfl
  · simp only [execCommandResult]
    rw [if_pos hoe]
    rfl

/-- Witness for C4's amended theorem: the spec's `exit 7` example — a
    failure carrying both channels and code 7 yields a successful result
    with exit code 7. -/
theorem execCommandResult_cases_witness :
    (((some "out" : Option String).isSome ||
      (some "" : Option String).isSome) = true)
    ∧ (7 : Nat) ≠ 0
    ∧ execCommandResult (.failure (some "out") (some "") (some 7)) =
      some { stdout := "out", stderr := "", exitCode := 7 } := by
  refine ⟨by decide, by decide, ?_⟩
  have h := execCommandResult_cases "" "" (some "out") (some "") 7 none
    (by decide) (by decide)
  simpa using h.2.1

/-- Claim C7: the combined logs are stdout, one newline, stderr when both
    channels are non-empty; an empty channel is filtered out entirely, so
    with empty stderr the result is exactly the stdout content, and with
    empty stdout exactly the stderr content. -/
theorem combineLogChannels_spec (out err : String) :
    (out ≠ "" → err ≠ "" → combineLogChannels out err = out ++ "\n" ++ err)
    ∧ (err = "" → combineLogChannels out err = out)
    ∧ (out = "" → combineLogChannels out err = err) := by
  have hnil : ("" : String).isEmpty = true := rfl
  refine ⟨?_, ?_, ?_⟩
  · intro ho he
    have ho2 : out.isEmpty = false := by
      cases h : out.isEmpty
      · rfl
      · exact absurd ((String.isEmpty_iff _).mp h) ho
    have he2 : err.isEmpty = false := by
      cases h : err.isEmpty
      · rfl
      · exact absurd ((String.isEmpty_iff _).mp h) he
    simp [combineLogChannels, joinNewline, ho2, he2]
  · intro he
    subst he
    by_cases ho : out = ""
    · subst ho; rfl
    · have ho2 : out.isEmpty = false := by
        cases h : out.isEmpty
        · rfl
        · exact absurd ((String.isEmpty_iff _).mp h) ho
      simp [combineLogChannels, joinNewline, ho2, hnil]
  · intro ho
    subst ho
    by_cases he : err = ""
    · subst he; rfl
    · have he2 : err.isEmpty = false := by
        cases h : err.isEmpty
        · rfl
        · exact absurd ((String.isEmpty_iff _).mp h) he
      simp [combineLogChannels, joinNewline, he2, hnil]

/-- Witness for C7 at concrete channels: both non-empty, and stderr
    empty. -/
theorem combineLogChannels_spec_witness :
    combineLogChannels "a" "b" = "a" ++ "\n" ++ "b"
    ∧ combineLogChannels "a" "" = "a" := by
  constructor
  · exact (combineLogChannels_spec "a" "b").1 (by decide) (by decide)
  · exact (combineLogChannels_spec "a" "").2.1 rfl

/-- Claim C2 is a code bug: the inspect (and logs, stats) command builders
    concatenate the caller-controlled identifier without escaping, so an
    identifier containing a semicolon reaches the shell as a second
    command (metacharacter effect, `shellWords` refuses the line), while
    the escaped form of the very same identifier would have produced a
    single literal argument. -/
theorem inspectContainerCommand_unescaped_cex :
    inspectContainerCommand "x;id" = "docker inspect x;id"
    ∧ shellWords (inspectContainerCommand "x;id").data = none
    ∧ shellWords ("docker inspect " ++ escapeShellArg "x;id").data =
      some ["docker".data, "inspect".data, "x;id".data]
    ∧ getContainerLogsCommand "x;id" (some 100) none none false =
      "docker logs x;id --tail 100" := by
  refine ⟨rfl, by decide, ?_, rfl⟩
  have h := escapeShellArg_injection_safe "x;id"
  show shellWordsAux ("docker inspect ".data ++ (escapeShellArg "x;id").data)
    .gap [] [] = some ["docker".data, "inspect".data, "x;id".data]
  rw [show ("docker inspect ".data ++ (escapeShellArg "x;id").data) =
    "docker inspect ".data ++ (squote :: escapeChars "x;id".data ++ [squote])
    from rfl]
  show shellWordsAux
    ("docker inspect ".data ++ squote :: escapeChars "x;id".data ++ [squote])
    .gap [] [] = _
  decide

/-- Claim C6 is a code bug: the ISO timestamp of the epoch instant is
    parseable as an absolute date (the oracle returns a number, not NaN)
    and matches no relative-duration token, yet validation rejects it,
    because `if (Date.parse(val))` is false at the number 0; one second
    later is accepted. The claim (and the code's own error message, which
    promises to accept ISO dates) says every parseable absolute timestamp
    is accepted. -/
theorem timestampAccepted_epoch_rejected :
    dateParseAtEpoch "1970-01-01T00:00:00Z" = some 0
    ∧ isRelativeDuration "1970-01-01T00:00:00Z" = false
    ∧ timestampAccepted dateParseAtEpoch "1970-01-01T00:00:00Z" = false
    ∧ timestampAccepted dateParseAtEpoch "1970-01-01T00:00:01Z" = true
    ∧ timestampAccepted dateParseAtEpoch "42m" = true := by
  decide

/-- Claim C8: when the daemon probe fails, every operation type fails
    identically with the daemon-unavailable classification after the
    version probe alone — no listing fetch or other subprocess work is
    attempted. -/
theorem handleTool_daemon_unavailable (env : DockerEnv) (req : ToolRequest)
    (h : env.available = false) :
    handleTool env req = (.error .dockerNotAvailable, [.version]) := by
  unfold handleTool
  rw [h]
  rfl

/-- Witness for C8 at a concrete environment and request. -/
theorem handleTool_daemon_unavailable_witness :
    envDown.available = false ∧
    handleTool envDown (.listContainers true) =
      (.error .dockerNotAvailable, [.version]) :=
  ⟨rfl, handleTool_daemon_unavailable envDown (.listContainers true) rfl⟩

/-- Claim C9: with the daemon reachable and valid arguments, logs and
    inspect fetch the all-containers listing and never the running-only
    one, stats and exec fetch the running-only listing and never the full
    one, and a stats/exec resolver miss yields `ContainerNotFound`
    carrying the original identifier with the `(running)` annotation. -/
theorem handleTool_resolution_scopes (env : DockerEnv) (container : String)
    (lines : Nat) (since untl : Option String) (ts : Bool)
    (command : List String) (wd : Option String) (ev : Option (List String))
    (us : Option String) (priv inter : Bool)
    (hav : env.available = true)
    (hlogs : isValidReadLogsArgs env.dateParse container lines since untl
      = true)
    (hid : isValidContainerIdentifier container = true)
    (hexec : isValidExecArgs container command wd ev us = true) :
    (DockerCall.ps true ∈
        (handleTool env (.readLogs container lines since untl ts)).2
      ∧ DockerCall.ps false ∉
        (handleTool env (.readLogs container lines since untl ts)).2)
    ∧ (DockerCall.ps true ∈ (handleTool env (.inspectContainer container)).2
      ∧ DockerCall.ps false ∉
        (handleTool env (.inspectContainer container)).2)
    ∧ (DockerCall.ps false ∈ (handleTool env (.containerStats container)).2
      ∧ DockerCall.ps true ∉ (handleTool env (.containerStats container)).2)
    ∧ (DockerCall.ps false ∈
        (handleTool env
          (.execCommand container command wd ev us priv inter)).2
      ∧ DockerCall.ps true ∉
        (handleTool env
          (.execCommand container command wd ev us priv inter)).2)
    ∧ (findContainerByName (parseContainers (env.psOutput false)) container
        = none →
      (handleTool env (.containerStats container)).1 =
        .error (.containerNotFound (container ++ " (running)"))
      ∧ (handleTool env
          (.execCommand container command wd ev us priv inter)).1 =
        .error (.containerNotFound (container ++ " (running)"))) := by
  unfold handleTool
  simp only [hav, hlogs, hid, hexec, Bool.not_true]
  cases hf1 : findContainerByName (parseContainers (env.psOutput true))
      container <;>
    cases hf2 : findContainerByName (parseContainers (env.psOutput false))
      container <;>
    cases hr : execCommandResult env.execOutcome <;>
    simp [hf1, hf2, hr]

/-- Witness for C9: resolving against the empty running-only listing
    fails for stats with the annotated identifier, and the stats trace
    contains the running-only listing fetch. -/
theorem handleTool_resolution_scopes_witness :
    (handleTool envUp (.containerStats "web")).1 =
      .error (.containerNotFound ("web" ++ " (running)"))
    ∧ DockerCall.ps false ∈ (handleTool envUp (.containerStats "web")).2 := by
  have hfind : findContainerByName (parseContainers (envUp.psOutput false))
      "web" = none := rfl
  have h := handleTool_resolution_scopes envUp "web" 100 none none false
    ["ls"] none none none false false rfl (by decide) (by decide) (by decide)
  exact ⟨(h.2.2.2.2 hfind).1, h.2.2.1.1⟩
